import Mathlib

/-!
Verification of the ph-shoes-web-scrapper extraction/normalization pipeline.

Shallow embedding of the per-brand extractors (src/extractors/%.py), the
page fetcher (src/utils/fetch_html.py), the CSV/S3 serializer
(src/utils/csv_util.py) and the HTTP dispatch (src/main.py).

Modelling conventions:
  - pandas DataFrames of product records become `List ShoeRec`; a pandas
    NaN / Python None in a cell becomes `none` of an `Option` field.
  - Python floats carrying prices become `Rat` (the code only parses,
    compares and clamps them; no float-specific behaviour is involved).
  - Python `str.lower` is modelled on the ASCII fragment (all strings the
    cleaning steps lowercase are ASCII), which coincides with
    `Char.toLower`-style basic-latin lowering.
-/

/-- Canonical product record: the shape shared by `BaseShoe`
(src/extractors/base.py) and the per-row dicts the extractors build.
Fields that the cleaning steps may see as pandas NaN are `Option`s. -/
structure ShoeRec where
  id : Option String
  title : String
  subTitle : Option String
  url : String
  image : Option String
  price_sale : Option Rat
  price_original : Option Rat
  gender : List String
  age_group : String
  brand : String
  extra : Option String
deriving DecidableEq, Repr

instance : Inhabited ShoeRec :=
  ⟨{ id := none, title := "", subTitle := none, url := "", image := none,
     price_sale := none, price_original := none, gender := [], age_group := "",
     brand := "", extra := none }⟩

/-- Python `str.lower` on one character, restricted to basic latin
(matching the ASCII data the pipeline lowercases). -/
def pyLowerChar (c : Char) : Char :=
  if 65 ≤ c.toNat ∧ c.toNat ≤ 90 then Char.ofNat (c.toNat + 32) else c

/-- Python `str.lower` on a string (ASCII fragment). -/
def pyLower (s : String) : String :=
  ⟨s.data.map pyLowerChar⟩

/-- Python `str.strip` (default whitespace stripping). -/
def pyStrip (s : String) : String :=
  ⟨((s.data.dropWhile Char.isWhitespace).reverse.dropWhile Char.isWhitespace).reverse⟩

/-- The price-column normalization every brand applies:
`pd.to_numeric(col, errors="coerce").fillna(0).clip(lower=0)`.
Coercion failures are already `none` in the model. -/
def cleanPrice (v : Option Rat) : Option Rat :=
  some (max 0 (v.getD 0))

/-- Accumulator version of pandas `drop_duplicates(subset=["id"], keep="first")`:
keeps the first record bearing each id (NaN ids compare equal, as in pandas). -/
def dedupByIdAux (seen : List (Option String)) : List ShoeRec → List ShoeRec
  | [] => []
  | r :: rs =>
    if r.id ∈ seen then dedupByIdAux seen rs
    else r :: dedupByIdAux (r.id :: seen) rs

/-- pandas `drop_duplicates(subset=["id"], keep="first")`. -/
def dedupById (rs : List ShoeRec) : List ShoeRec :=
  dedupByIdAux [] rs

/-- Python `sorted` on a list of strings (lexicographic by code point). -/
def sortStrList (l : List String) : List String :=
  l.insertionSort (· ≤ ·)

/-! ### hoka.py `HokaExtractor._clean_data` (lines 210-220) -/

/-- The columnwise part of hoka's `_clean_data`: price coercion + clamp and
gender lowercasing (the `isinstance(g, list)` guard is always taken in the
model, where gender is a list by construction). -/
def hokaNormRec (r : ShoeRec) : ShoeRec :=
  { r with price_sale := cleanPrice r.price_sale,
           price_original := cleanPrice r.price_original,
           gender := r.gender.map pyLower }

/-- hoka `_clean_data`: normalize columns, `dropna(subset=["id"])`,
`drop_duplicates(subset=["id"], keep="first")`, then `image.fillna("")`. -/
def hoka_clean_data (rs : List ShoeRec) : List ShoeRec :=
  (dedupById ((rs.map hokaNormRec).filter (fun r => !(r.id == none)))).map
    (fun r => { r with image := some (r.image.getD "") })

/-! ### asics.py `AsicsExtractor._clean_data` (lines 186-193) -/

/-- asics `_clean_data`: same as hoka's but the image default is the
sentinel `"no_image.png"`. -/
def asics_clean_data (rs : List ShoeRec) : List ShoeRec :=
  (dedupById ((rs.map hokaNormRec).filter (fun r => !(r.id == none)))).map
    (fun r => { r with image := some (r.image.getD "no_image.png") })

/-! ### nike.py `NikeExtractor._clean_data` (lines 139-168) -/

/-- The apparel keywords of nike's filter regex, in source order. -/
def nikeApparelKeywords : List String :=
  ["sportswear", "tshirt", "drifit", "t-shirt", "cap", "shorts", "short",
   "jacket", "hoodie", "backpack", "socks", "trousers", "bag"]

/-- `Series.str.contains(pattern, case=False)` for nike's alternation of
literal keywords: case-insensitive substring search. -/
def nikeApparelMatch (s : String) : Bool :=
  nikeApparelKeywords.any (fun k => decide (k.data <:+: (pyLower s).data))

/-- nike's per-record `norm_gender`: a list holding both "male" and
"female" collapses to exactly `["unisex"]`; anything else is kept. -/
def nikeNormGender (g : List String) : List String :=
  if "male" ∈ g ∧ "female" ∈ g then ["unisex"] else g

/-- Step 1 of nike `_clean_data`: brand lowercase/strip and image fillna. -/
def nikeBrandImageFix (r : ShoeRec) : ShoeRec :=
  { r with brand := pyLower (pyStrip r.brand), image := some (r.image.getD "") }

/-- Step 2 of nike `_clean_data`: the row-keeping predicate of the
apparel-keyword filter on title and subTitle (`na=False`: a missing
subTitle never matches). -/
def nikeKeepRow (r : ShoeRec) : Bool :=
  !(nikeApparelMatch r.title) &&
  !(match r.subTitle with | some st => nikeApparelMatch st | none => false)

/-- Step 3 of nike `_clean_data`: price fillna(0) + clip(lower=0). -/
def nikePriceFix (r : ShoeRec) : ShoeRec :=
  { r with price_sale := some (max 0 (r.price_sale.getD 0)),
           price_original := some (max 0 (r.price_original.getD 0)) }

/-- Step 4 of nike `_clean_data`: per-record gender collapse. -/
def nikeGenderFix (r : ShoeRec) : ShoeRec :=
  { r with gender := nikeNormGender r.gender }

/-- nike `_clean_data` before its final dedupe. -/
def nike_pre_dedup (rs : List ShoeRec) : List ShoeRec :=
  (((rs.map nikeBrandImageFix).filter nikeKeepRow).map nikePriceFix).map nikeGenderFix

/-- nike `_clean_data`: brand lowercase/strip, image fillna, apparel-keyword
filter, price fillna + clip, per-record gender collapse, then dedupe by id
keep first. -/
def nike_clean_data (rs : List ShoeRec) : List ShoeRec :=
  dedupById (nike_pre_dedup rs)

/-! ### world_balance.py `WorldBalanceExtractor._clean_data` (lines 166-184) -/

/-- The columnwise part of world_balance's `_clean_data` (the
guarantee-columns-exist step is vacuous in the record model, where every
field exists). -/
def wbNormRec (r : ShoeRec) : ShoeRec :=
  { r with image := some (r.image.getD "no_image.png"),
           price_original := some (max 0 (r.price_original.getD 0)),
           price_sale := some (max 0 (r.price_sale.getD 0)),
           gender := r.gender.map pyLower }

/-- world_balance `_clean_data`: normalize columns then
`drop_duplicates(subset=["id"], keep="first")`. -/
def world_balance_clean_data (rs : List ShoeRec) : List ShoeRec :=
  dedupById (rs.map wbNormRec)

/-! ### adidas.py `AdidasExtractor._clean_data` (lines 125-150) -/

/-- The columnwise part of adidas's `_clean_data`: gender lowercasing and
price coercion + clamp. -/
def adidasNormRec (r : ShoeRec) : ShoeRec :=
  { r with gender := r.gender.map pyLower,
           price_sale := cleanPrice r.price_sale,
           price_original := cleanPrice r.price_original }

/-- The records of one `groupby("id")` group. -/
def idGroup (rs : List ShoeRec) (i : String) : List ShoeRec :=
  rs.filter (fun r => r.id == some i)

/-- The group keys of `df.groupby("id")`: distinct non-null ids in
ascending order (pandas sorts group keys and drops NaN keys). -/
def groupKeys (rs : List ShoeRec) : List String :=
  sortStrList ((rs.filterMap (fun r => r.id)).dedup)

/-- The gender union of adidas's `merge_group`: the set comprehension over
all gender entries of the group, as a duplicate-free list. -/
def genderUnion (g : List ShoeRec) : List String :=
  ((g.map (fun r => r.gender)).flatten).dedup

/-- adidas's collapse rule inside `merge_group`: a union containing both
"male" and "female" becomes exactly `["unisex"]`; otherwise the sorted
union is kept. -/
def collapseGenders (genders : List String) : List String :=
  if "male" ∈ genders ∧ "female" ∈ genders then ["unisex"] else sortStrList genders

/-- adidas `merge_group`: base = first row of the group (scalar fields
first-wins), gender replaced by the collapsed union. -/
def adidasMergeGroup (g : List ShoeRec) : ShoeRec :=
  let base := g.headD default
  { base with gender := collapseGenders (genderUnion g) }

/-- pandas `image.fillna(d)` on one record. -/
def fillImage (d : String) (r : ShoeRec) : ShoeRec :=
  { r with image := some (r.image.getD d) }

/-- adidas `_clean_data`: lowercase gender, coerce prices, merge duplicate
ids via `groupby("id").apply(merge_group)` (skipped on an empty frame),
then `image.fillna("")`. -/
def adidas_clean_data (rs : List ShoeRec) : List ShoeRec :=
  let rs1 := rs.map adidasNormRec
  let merged := if rs1.isEmpty then rs1
    else (groupKeys rs1).map (fun i => adidasMergeGroup (idGroup rs1 i))
  merged.map (fillImage "")

/-! ### new_balance.py `NewBalanceExtractor.extract` (lines 237-303) -/

/-- The per-row dict new_balance's `_parse_page` builds. Prices are plain
numbers (rows whose price text fails to parse are skipped by `continue`);
`extra` holds a JSON blob `{"sizes": [...]}` in the source, which the merge
step immediately re-parses — modelled here as the size list itself. -/
structure NBRec where
  id : String
  title : String
  subTitle : String
  url : String
  image : String
  price_sale : Rat
  price_original : Rat
  gender : List String
  age_group : String
  brand : String
  sizes : List String
deriving DecidableEq, Repr

instance : Inhabited NBRec :=
  ⟨{ id := "", title := "", subTitle := "", url := "", image := "",
     price_sale := 0, price_original := 0, gender := [], age_group := "",
     brand := "", sizes := [] }⟩

/-- new_balance's gender test inside the merge loop:
`genders == {"male","female"}` — set equality, not the superset test
adidas uses. -/
def nbGenderSetIsMF (genders : List String) : Bool :=
  genders.contains "male" && genders.contains "female" &&
    genders.all (fun x => x == "male" || x == "female")

/-- One `groupby("id")` group of `NBRec`s. -/
def nbIdGroup (rs : List NBRec) (i : String) : List NBRec :=
  rs.filter (fun r => r.id == i)

/-- The duplicate-merge loop of new_balance `extract` (lines 276-291):
groups sorted by id (pandas groupby), scalar fields from the first row,
sizes unioned and sorted, gender unioned with the set-equality collapse. -/
def nbMergeById (rs : List NBRec) : List NBRec :=
  (sortStrList ((rs.map (fun r => r.id)).dedup)).map (fun i =>
    let g := nbIdGroup rs i
    let base := g.headD default
    let genders := ((g.map (fun r => r.gender)).flatten).dedup
    { base with
        sizes := sortStrList (((g.map (fun r => r.sizes)).flatten).dedup),
        gender := if nbGenderSetIsMF genders then ["unisex"] else sortStrList genders })

/-- The post-merge numeric cleaning of new_balance `extract`
(lines 294-297), plus the early return on an empty raw batch. -/
def new_balance_postprocess (rs : List NBRec) : List NBRec :=
  if rs.isEmpty then []
  else (nbMergeById rs).map (fun r =>
    { r with price_sale := max 0 r.price_sale,
             price_original := max 0 r.price_original })

/-! ### Pagination loops (C4) -/

/-- adidas `_extract_raw` pagination loop (lines 73-123): the cap check
`0 <= self.num_pages <= page` runs before each fetch; an empty page or a
short page stops the loop. `fetch page` models `_fetch_page` + item
extraction for page index `page`. Returns the accumulated raw records and
the number of pages fetched; `fuel` bounds the (otherwise possibly
unbounded) loop. -/
def adidas_extract_raw_loop (fetch : Nat → List ShoeRec) (pageSize : Nat)
    (numPages : Int) : Nat → Nat → (List ShoeRec × Nat)
  | 0, _ => ([], 0)
  | fuel + 1, page =>
    if 0 ≤ numPages ∧ numPages ≤ (page : Int) then ([], 0)
    else
      let items := fetch page
      if items.isEmpty then ([], 1)
      else if items.length < pageSize then (items, 1)
      else
        let rec_ := adidas_extract_raw_loop fetch pageSize numPages fuel (page + 1)
        (items ++ rec_.1, rec_.2 + 1)

/-- new_balance `extract` per-fragment page loop (lines 246-269): the cap
check `self.max_pages != -1 and page > self.max_pages` runs before each
fetch; a fetch exception (`none`) stops; two consecutive empty parses
stop. Returns accumulated records and the number of pages fetched. -/
def new_balance_page_loop (fetchParse : Nat → Option (List NBRec))
    (maxPages : Int) : Nat → Nat → Nat → (List NBRec × Nat)
  | 0, _, _ => ([], 0)
  | fuel + 1, page, emptyRuns =>
    if maxPages ≠ -1 ∧ maxPages < (page : Int) then ([], 0)
    else
      match fetchParse page with
      | none => ([], 1)
      | some items =>
        if items.isEmpty then
          if 2 ≤ emptyRuns + 1 then ([], 1)
          else
            let rec_ := new_balance_page_loop fetchParse maxPages fuel (page + 1) (emptyRuns + 1)
            (rec_.1, rec_.2 + 1)
        else
          let rec_ := new_balance_page_loop fetchParse maxPages fuel (page + 1) 0
          (items ++ rec_.1, rec_.2 + 1)

/-- One response of the nike lazy-load API: the products of
`productGroupings` (modelled opaquely as strings) and `pages.next`. -/
structure NikeResp where
  groupings : List (List String)
  next : Option String
deriving Repr

/-- nike `_get_products_from_groupings` (lines 62-73): recursively fetch
`self.API_BASE + stub`, extend `products` with every grouping's products,
and follow `pages.next` until it is absent. The recursion never consults
`self.num_pages`. Returns the products and the number of requests made. -/
def nike_get_products_from_groupings (api : String → NikeResp) :
    Nat → Option String → List String → (List String × Nat)
  | _, none, products => (products, 0)
  | 0, some _, products => (products, 0)
  | fuel + 1, some stub, products =>
    let resp := api stub
    let products2 := products ++ resp.groupings.flatten
    match resp.next with
    | some nxt =>
      let rec_ := nike_get_products_from_groupings api fuel (some nxt) products2
      (rec_.1, rec_.2 + 1)
    | none => (products2, 1)

/-! ### utils/fetch_html.py `fetch_html` (lines 15-61) -/

/-- The retry loop of `fetch_html`: attempt `k` receives
`attemptResp k`, where `none` models a raised exception and
`some (status, body)` a response. Only a status of exactly 200 returns;
every other outcome (any non-200 status, any exception) falls through to
the backoff sleep and the next attempt. -/
def fetch_html_loop (attemptResp : Nat → Option (Nat × String)) :
    Nat → Nat → Option String
  | 0, _ => none
  | n + 1, attempt =>
    match attemptResp attempt with
    | some (status, body) =>
      if status = 200 then some body
      else fetch_html_loop attemptResp n (attempt + 1)
    | none => fetch_html_loop attemptResp n (attempt + 1)

/-- `fetch_html`: the retry loop over `retries` attempts, then — when the
proxy path was in use and `FALLBACK_DIRECT` is set — one direct request;
`none` models the final `return None`. -/
def fetch_html (retries : Nat) (attemptResp : Nat → Option (Nat × String))
    (useProxy fallbackDirect : Bool) (direct : Option (Nat × String)) : Option String :=
  match fetch_html_loop attemptResp retries 0 with
  | some body => some body
  | none =>
    if useProxy && fallbackDirect then
      match direct with
      | some (status, body) => if status = 200 then some body else none
      | none => none
    else none

/-! ### main.py `run_extract` (lines 46-69) -/

/-- The six extractor classes of the static lookup table. -/
inductive Brand where
  | adidas | nike | worldbalance | newbalanceAtmos | asics | hoka
deriving DecidableEq, Repr

/-- The static brand-to-extractor lookup table of `run_extract`
(`lookup.get(brand.lower())`). -/
def brandLookup (b : String) : Option Brand :=
  if b = "adidas" then some .adidas
  else if b = "nike" then some .nike
  else if b = "worldbalance" then some .worldbalance
  else if b = "newbalance_atmos" then some .newbalanceAtmos
  else if b = "asics" then some .asics
  else if b = "hoka" then some .hoka
  else none

/-- The JSON body `run_extract` returns: either a dict with an `error`
field, or one with the `extracted` rows. -/
inductive RunResult where
  | errorResp (msg : String)
  | extracted (rows : List ShoeRec)
deriving Repr

/-- `run_extract`: dispatch on the lookup table; an unknown brand yields
the structured error body, a known one runs the extractor (modelled by the
oracle `runBrand`). -/
def run_extract (runBrand : Brand → String → Int → List ShoeRec)
    (category brand : String) (pages : Int) : RunResult :=
  match brandLookup (pyLower brand) with
  | none => .errorResp ("Brand " ++ brand ++ " not implemented.")
  | some b => .extracted (runBrand b category pages)

/-! ### utils/csv_util.py `CSVUtil.upload_to_s3` (lines 42-91) -/

/-- A Python cell value as seen by the CSV writer. -/
inductive PyVal where
  | pnone
  | pstr (s : String)
  | pnum (q : Rat)
  | pbool (b : Bool)
deriving DecidableEq, Repr

/-- `sanitize` inside `upload_to_s3`: exactly the empty string becomes
`"empty"`; every other value is left alone. -/
def sanitize (v : PyVal) : PyVal :=
  if v = .pstr "" then .pstr "empty" else v

/-- Python `row.get(col, "")` on a dict modelled as an association list
(dict keys are unique in Python; `find?` takes the first binding). -/
def dictGet (row : List (String × PyVal)) (k : String) : PyVal :=
  match row.find? (fun p => p.1 == k) with
  | some p => p.2
  | none => .pstr ""

/-- The in-memory CSV `upload_to_s3` builds for a list of dict rows
(the branch taken by main.py, which passes dicts): a header row taken
unsanitized from the first dict's keys, then one sanitized row per dict.
The source indexes `results[0]`, raising on an empty list; the model
returns `[]` there. -/
def upload_to_s3_rows (results : List (List (String × PyVal))) : List (List PyVal) :=
  match results with
  | [] => []
  | first :: _ =>
    let headers := first.map (fun p => p.1)
    (headers.map PyVal.pstr) ::
      results.map (fun row => headers.map (fun col => sanitize (dictGet row col)))

/-! ### Price parsing (C3) -/

/-- Numeric value of a digit list (most significant first). -/
def digitsToNat (ds : List Char) : Nat :=
  ds.foldl (fun acc c => acc * 10 + (c.toNat - 48)) 0

/-- Python `float(...)` on the strings the parsers feed it: an unsigned
decimal literal — nonempty, only digits and at most one dot, at least one
digit. (Python also accepts signs, exponents, surrounding whitespace and
the words inf/nan; none of those reach these call sites.) `none` models a
raised `ValueError`. -/
def pyFloat (s : String) : Option Rat :=
  let cs := s.data
  if !cs.isEmpty && cs.all (fun c => c.isDigit || c == '.') &&
      decide (cs.count '.' ≤ 1) && cs.any (fun c => c.isDigit) then
    let intPart := cs.takeWhile (fun c => c ≠ '.')
    let fracPart := (cs.dropWhile (fun c => c ≠ '.')).drop 1
    some ((digitsToNat intPart : Rat) + (digitsToNat fracPart : Rat) / (10 : Rat) ^ fracPart.length)
  else none

/-- asics `parse_price` (asics.py lines 130-139) on the raw text of a
present tag: `re.sub` keeps only digits and dots, an empty result yields
`None` (`.ok none`), otherwise `float(digits)` — whose `ValueError` is NOT
caught here and escapes to the per-tile handler (`.error ()`). The
absent-tag case (`None` input, also `.ok none`) is handled by the caller. -/
def asics_parse_price (raw : String) : Except Unit (Option Rat) :=
  let digits : List Char := raw.data.filter (fun c => c.isDigit || c == '.')
  if digits.isEmpty then .ok none
  else
    match pyFloat ⟨digits⟩ with
    | some q => .ok (some q)
    | none => .error ()

/-- hoka `_parse_price` (hoka.py lines 119-127): a missing tag yields
`None`; otherwise the tag text has "₱" and "," removed, an empty result
yields `None`, and `float(...)` is attempted with `ValueError` caught to
`None`. -/
def hoka_parse_price (tag : Option String) : Option Rat :=
  match tag with
  | none => none
  | some text =>
    let t : List Char := text.data.filter (fun c => c ≠ '₱' ∧ c ≠ ',')
    if t.isEmpty then none else pyFloat ⟨t⟩

/-! world_balance `parse_price` (world_balance.py lines 72-84) uses
`re.findall` with the pattern `\d{1,3}(?:,\d{3})*\.\d{2}`. The scanner
below reproduces the regex engine's behaviour on that pattern: matches are
found left to right and non-overlapping, `\d{1,3}` is greedy with
backtracking, the `(?:,\d{3})*` star is greedy with backtracking, and the
`\.\d{2}` tail is literal. -/

/-- Leading digits of a character list and the remainder. -/
def wbLeadDigits : List Char → List Char × List Char
  | [] => ([], [])
  | c :: cs =>
    if c.isDigit then
      let p := wbLeadDigits cs
      (c :: p.1, p.2)
    else ([], c :: cs)

/-- All ways the star `(?:,\d{3})*` can match a prefix, greediest (most
groups) first: each entry is (consumed text, remainder). -/
def wbCommaGroups : List Char → List (List Char × List Char)
  | ',' :: a :: b :: c :: rest =>
    if a.isDigit && b.isDigit && c.isDigit then
      ((wbCommaGroups rest).map (fun p => (',' :: a :: b :: c :: p.1, p.2))) ++
        [([], ',' :: a :: b :: c :: rest)]
    else [([], ',' :: a :: b :: c :: rest)]
  | cs => [([], cs)]

/-- The literal tail `\.\d{2}`. -/
def wbMatchTail : List Char → Option (List Char × List Char)
  | '.' :: a :: b :: rest =>
    if a.isDigit && b.isDigit then some (['.', a, b], rest) else none
  | _ => none

/-- Try the star alternatives in order, completing each with the tail. -/
def wbTryTail (pre : List Char) : List (List Char × List Char) → Option (List Char × List Char)
  | [] => none
  | (g, r) :: rest =>
    match wbMatchTail r with
    | some (t, r2) => some (pre ++ g ++ t, r2)
    | none => wbTryTail pre rest

/-- Try one match of the whole pattern anchored at the start: `\d{1,3}`
takes `k` digits for `k` from `min 3 (number available)` down to 1. -/
def wbTryMatchK (ds rest0 : List Char) : List Nat → Option (List Char × List Char)
  | [] => none
  | k :: ks =>
    match wbTryTail (ds.take k) (wbCommaGroups (ds.drop k ++ rest0)) with
    | some res => some res
    | none => wbTryMatchK ds rest0 ks

/-- One anchored match attempt of `\d{1,3}(?:,\d{3})*\.\d{2}`. -/
def wbTryMatch (cs : List Char) : Option (List Char × List Char) :=
  let p := wbLeadDigits cs
  if p.1.isEmpty then none
  else wbTryMatchK p.1 p.2 ((List.range (min 3 p.1.length)).reverse.map (· + 1))

/-- `re.findall` of the price pattern: scan left to right, restarting
after each match (fuel bounds the scan; `s.length` is always enough). -/
def wbFindAll : Nat → List Char → List (List Char)
  | 0, _ => []
  | _ + 1, [] => []
  | fuel + 1, c :: cs =>
    match wbTryMatch (c :: cs) with
    | some (m, rest) => m :: wbFindAll fuel rest
    | none => wbFindAll fuel cs

/-- world_balance `parse_price`: findall, strip commas, parse; two or more
matches give `(sale, orig) = (nums[1], nums[0])`, one gives it twice, none
gives `(0.0, 0.0)`. (Matched texts are always valid float literals, so the
`getD 0` never fires.) -/
def world_balance_parse_price (raw : String) : Rat × Rat :=
  let nums := (wbFindAll raw.data.length raw.data).map
    (fun m => (pyFloat ⟨m.filter (fun c => c ≠ ',')⟩).getD 0)
  match nums with
  | orig :: sale :: _ => (sale, orig)
  | [v] => (v, v)
  | [] => (0, 0)

/-! ### Helper lemmas -/

theorem pyLowerChar_idem (c : Char) : pyLowerChar (pyLowerChar c) = pyLowerChar c := by
  by_cases h : 65 ≤ c.toNat ∧ c.toNat ≤ 90
  · have hval : Nat.isValidChar (c.toNat + 32) := Or.inl (by omega)
    have ht : (Char.ofNat (c.toNat + 32)).toNat = c.toNat + 32 := by
      rw [Char.ofNat, dif_pos hval]; rfl
    have hc : pyLowerChar c = Char.ofNat (c.toNat + 32) := by
      rw [pyLowerChar, if_pos h]
    rw [hc, pyLowerChar, ht, if_neg (by omega)]
  · have hc : pyLowerChar c = c := by rw [pyLowerChar, if_neg h]
    rw [hc]
    exact hc

theorem pyLower_idem (s : String) : pyLower (pyLower s) = pyLower s := by
  show String.mk ((s.data.map pyLowerChar).map pyLowerChar) = String.mk (s.data.map pyLowerChar)
  rw [List.map_map]
  exact congrArg String.mk (List.map_congr_left (fun a _ => pyLowerChar_idem a))

theorem mem_dedupByIdAux {seen : List (Option String)} {l : List ShoeRec} {x : ShoeRec}
    (h : x ∈ dedupByIdAux seen l) : x ∈ l := by
  induction l generalizing seen with
  | nil => simp [dedupByIdAux] at h
  | cons r rs ih =>
    rw [dedupByIdAux] at h
    by_cases hs : r.id ∈ seen
    · rw [if_pos hs] at h
      exact List.mem_cons_of_mem _ (ih h)
    · rw [if_neg hs] at h
      rcases List.mem_cons.mp h with h1 | h2
      · simp [h1]
      · exact List.mem_cons_of_mem _ (ih h2)

theorem mem_dedupById {l : List ShoeRec} {x : ShoeRec} (h : x ∈ dedupById l) : x ∈ l :=
  mem_dedupByIdAux h

theorem dedupByIdAux_id_not_seen {seen : List (Option String)} {l : List ShoeRec} :
    ∀ x ∈ dedupByIdAux seen l, x.id ∉ seen := by
  induction l generalizing seen with
  | nil => simp [dedupByIdAux]
  | cons r rs ih =>
    intro x hx
    rw [dedupByIdAux] at hx
    by_cases hs : r.id ∈ seen
    · rw [if_pos hs] at hx
      exact ih x hx
    · rw [if_neg hs] at hx
      rcases List.mem_cons.mp hx with h1 | h2
      · rw [h1]; exact hs
      · intro hc
        exact ih x h2 (List.mem_cons_of_mem _ hc)

theorem dedupByIdAux_pairwise {seen : List (Option String)} {l : List ShoeRec} :
    (dedupByIdAux seen l).Pairwise (fun a b => a.id ≠ b.id) := by
  induction l generalizing seen with
  | nil => simp [dedupByIdAux]
  | cons r rs ih =>
    rw [dedupByIdAux]
    by_cases hs : r.id ∈ seen
    · rw [if_pos hs]; exact ih
    · rw [if_neg hs]
      refine List.Pairwise.cons (fun x hx => ?_) ih
      have := dedupByIdAux_id_not_seen x hx
      intro hc
      exact this (by rw [← hc]; exact List.mem_cons_self _ _)

theorem dedupByIdAux_eq_self {seen : List (Option String)} {l : List ShoeRec}
    (hl : l.Pairwise (fun a b => a.id ≠ b.id)) (hseen : ∀ x ∈ l, x.id ∉ seen) :
    dedupByIdAux seen l = l := by
  induction l generalizing seen with
  | nil => rfl
  | cons r rs ih =>
    rw [dedupByIdAux, if_neg (hseen r (List.mem_cons_self _ _))]
    congr 1
    refine ih hl.of_cons (fun x hx => ?_)
    intro hc
    rcases List.mem_cons.mp hc with h1 | h2
    · exact (List.pairwise_cons.mp hl).1 x hx h1.symm
    · exact hseen x (List.mem_cons_of_mem _ hx) h2

theorem dedupById_idem (l : List ShoeRec) : dedupById (dedupById l) = dedupById l :=
  dedupByIdAux_eq_self dedupByIdAux_pairwise (by simp)

theorem find?_mem_dedupByIdAux {seen : List (Option String)} {l : List ShoeRec}
    {i : String} {r : ShoeRec} (hseen : some i ∉ seen)
    (h : l.find? (fun x => x.id == some i) = some r) :
    r ∈ dedupByIdAux seen l := by
  induction l generalizing seen with
  | nil => simp at h
  | cons a as ih =>
    rw [dedupByIdAux]
    by_cases ha : a.id = some i
    · rw [List.find?_cons_of_pos _ (by simp [ha])] at h
      rw [if_neg (by rw [ha]; exact hseen)]
      simp at h
      simp [h]
    · rw [List.find?_cons_of_neg _ (by simp [ha])] at h
      by_cases hs : a.id ∈ seen
      · rw [if_pos hs]; exact ih hseen h
      · rw [if_neg hs]
        refine List.mem_cons_of_mem _ (ih ?_ h)
        intro hc
        rcases List.mem_cons.mp hc with h1 | h2
        · exact ha h1.symm
        · exact hseen h2

theorem filter_head?_eq_find? {α : Type} (p : α → Bool) (l : List α) :
    (l.filter p).head? = l.find? p := by
  induction l with
  | nil => rfl
  | cons a as ih =>
    by_cases h : p a <;> simp [List.filter_cons, h, List.find?_cons, ih]

theorem headD_mem {α : Type} {l : List α} (h : l ≠ []) (d : α) : l.headD d ∈ l := by
  cases l with
  | nil => exact absurd rfl h
  | cons a as => exact List.mem_cons_self _ _

/-! ### C1: non-negative prices after cleaning -/

/-- Both price fields are present and non-negative. -/
def pricesNonneg (r : ShoeRec) : Prop :=
  (∃ p, r.price_sale = some p ∧ 0 ≤ p) ∧ (∃ p, r.price_original = some p ∧ 0 ≤ p)

theorem hoka_clean_nonneg {rs : List ShoeRec} {r : ShoeRec}
    (h : r ∈ hoka_clean_data rs) : pricesNonneg r := by
  rw [hoka_clean_data] at h
  rcases List.mem_map.mp h with ⟨r1, h1, rfl⟩
  rcases List.mem_filter.mp (mem_dedupById h1) with ⟨h2, -⟩
  rcases List.mem_map.mp h2 with ⟨r0, -, rfl⟩
  exact ⟨⟨_, rfl, le_max_left 0 _⟩, ⟨_, rfl, le_max_left 0 _⟩⟩

theorem asics_clean_nonneg {rs : List ShoeRec} {r : ShoeRec}
    (h : r ∈ asics_clean_data rs) : pricesNonneg r := by
  rw [asics_clean_data] at h
  rcases List.mem_map.mp h with ⟨r1, h1, rfl⟩
  rcases List.mem_filter.mp (mem_dedupById h1) with ⟨h2, -⟩
  rcases List.mem_map.mp h2 with ⟨r0, -, rfl⟩
  exact ⟨⟨_, rfl, le_max_left 0 _⟩, ⟨_, rfl, le_max_left 0 _⟩⟩

theorem nike_clean_nonneg {rs : List ShoeRec} {r : ShoeRec}
    (h : r ∈ nike_clean_data rs) : pricesNonneg r := by
  simp only [nike_clean_data, nike_pre_dedup] at h
  rcases List.mem_map.mp (mem_dedupById h) with ⟨r3, h3, rfl⟩
  rcases List.mem_map.mp h3 with ⟨r2, -, rfl⟩
  exact ⟨⟨_, rfl, le_max_left 0 _⟩, ⟨_, rfl, le_max_left 0 _⟩⟩

theorem wb_clean_nonneg {rs : List ShoeRec} {r : ShoeRec}
    (h : r ∈ world_balance_clean_data rs) : pricesNonneg r := by
  rw [world_balance_clean_data] at h
  rcases List.mem_map.mp (mem_dedupById h) with ⟨r0, -, rfl⟩
  exact ⟨⟨_, rfl, le_max_left 0 _⟩, ⟨_, rfl, le_max_left 0 _⟩⟩

theorem idGroup_ne_nil {rs : List ShoeRec} {i : String} (h : i ∈ groupKeys rs) :
    idGroup rs i ≠ [] := by
  rw [groupKeys, sortStrList] at h
  rw [List.mem_insertionSort, List.mem_dedup] at h
  rcases List.mem_filterMap.mp h with ⟨r0, hr0, hid⟩
  intro hc
  have hmem : r0 ∈ idGroup rs i := List.mem_filter.mpr ⟨hr0, by simp [hid]⟩
  rw [hc] at hmem
  exact (List.not_mem_nil _) hmem

theorem adidas_clean_nonneg {rs : List ShoeRec} {r : ShoeRec}
    (h : r ∈ adidas_clean_data rs) : pricesNonneg r := by
  simp only [adidas_clean_data] at h
  rcases List.mem_map.mp h with ⟨r1, h1, rfl⟩
  by_cases he : (rs.map adidasNormRec).isEmpty
  · rw [if_pos he, List.isEmpty_iff.mp he] at h1
    cases h1
  · rw [if_neg he] at h1
    rcases List.mem_map.mp h1 with ⟨i, hi, rfl⟩
    have hne := idGroup_ne_nil hi
    have hb := headD_mem hne (default : ShoeRec)
    have hbase : (idGroup (rs.map adidasNormRec) i).headD default ∈ rs.map adidasNormRec :=
      (List.mem_filter.mp hb).1
    rcases List.mem_map.mp hbase with ⟨r0, -, hEq⟩
    constructor
    · refine ⟨max 0 (r0.price_sale.getD 0), ?_, le_max_left 0 _⟩
      show ((idGroup (rs.map adidasNormRec) i).headD default).price_sale = _
      rw [← hEq]
      rfl
    · refine ⟨max 0 (r0.price_original.getD 0), ?_, le_max_left 0 _⟩
      show ((idGroup (rs.map adidasNormRec) i).headD default).price_original = _
      rw [← hEq]
      rfl

theorem nb_post_nonneg {rs : List NBRec} {r : NBRec}
    (h : r ∈ new_balance_postprocess rs) :
    0 ≤ r.price_sale ∧ 0 ≤ r.price_original := by
  rw [new_balance_postprocess] at h
  by_cases he : rs.isEmpty
  · rw [if_pos he] at h
    cases h
  · rw [if_neg he] at h
    rcases List.mem_map.mp h with ⟨r1, -, rfl⟩
    exact ⟨le_max_left 0 _, le_max_left 0 _⟩

/-- C1: every record in an extractor's cleaned output (all six brands) has
`price_sale >= 0` and `price_original >= 0`: the cleaning steps coerce,
default and clamp both price columns, so negative, missing or unparsable
inputs end up at 0. -/
theorem c1_prices_nonneg :
    (∀ rs r, (r ∈ hoka_clean_data rs ∨ r ∈ asics_clean_data rs ∨
        r ∈ nike_clean_data rs ∨ r ∈ world_balance_clean_data rs ∨
        r ∈ adidas_clean_data rs) → pricesNonneg r) ∧
    (∀ rs r, r ∈ new_balance_postprocess rs →
        0 ≤ r.price_sale ∧ 0 ≤ r.price_original) := by
  constructor
  · intro rs r h
    rcases h with h | h | h | h | h
    · exact hoka_clean_nonneg h
    · exact asics_clean_nonneg h
    · exact nike_clean_nonneg h
    · exact wb_clean_nonneg h
    · exact adidas_clean_nonneg h
  · intro rs r h
    exact nb_post_nonneg h

/-- A raw record with a negative sale price and a missing original price. -/
def demoRaw : ShoeRec :=
  { id := some "d1", title := "Demo", subTitle := none, url := "u", image := none,
    price_sale := some (-5), price_original := none, gender := ["MALE"],
    age_group := "adult", brand := "hoka", extra := none }

/-- A raw new_balance record with a negative price. -/
def demoRawNB : NBRec :=
  { id := "n1", title := "Demo", subTitle := "s", url := "u", image := "",
    price_sale := -7, price_original := 3, gender := ["male"],
    age_group := "adult", brand := "newbalance", sizes := ["US M 8"] }

theorem c1_prices_nonneg_witness :
    pricesNonneg ((hoka_clean_data [demoRaw]).headD default) ∧
    (0 ≤ ((new_balance_postprocess [demoRawNB]).headD default).price_sale ∧
     0 ≤ ((new_balance_postprocess [demoRawNB]).headD default).price_original) :=
  ⟨c1_prices_nonneg.1 [demoRaw] _ (Or.inl (by decide)),
   c1_prices_nonneg.2 [demoRawNB] _ (by decide)⟩

/-! ### C10: nike apparel-keyword filter -/

/-- C10: every record surviving nike's `_clean_data` has a title that
matches no apparel keyword and a subTitle (when present) that matches no
apparel keyword — the keyword filter drops all such records before the
dedupe, and no later step touches title or subTitle. -/
theorem c10_nike_apparel_filter :
    ∀ rs r, r ∈ nike_clean_data rs →
      nikeApparelMatch r.title = false ∧
      ∀ st, r.subTitle = some st → nikeApparelMatch st = false := by
  intro rs r h
  simp only [nike_clean_data, nike_pre_dedup] at h
  rcases List.mem_map.mp (mem_dedupById h) with ⟨r3, h3, rfl⟩
  rcases List.mem_map.mp h3 with ⟨r2, h2, rfl⟩
  rcases List.mem_filter.mp h2 with ⟨-, hp⟩
  rw [nikeKeepRow, Bool.and_eq_true, Bool.not_eq_true', Bool.not_eq_true'] at hp
  refine ⟨hp.1, ?_⟩
  intro st hst
  have h2 := hp.2
  rw [show (nikeGenderFix (nikePriceFix r2)).subTitle = r2.subTitle from rfl] at hst
  rw [hst] at h2
  exact h2

/-- A nike record free of apparel keywords and already in cleaned form. -/
def nikeGoodRec : ShoeRec :=
  { id := some "nk1", title := "Air Zoom", subTitle := some "Road", url := "u",
    image := some "", price_sale := some 10, price_original := some 12,
    gender := ["male"], age_group := "adult", brand := "nike", extra := none }

theorem c10_nike_apparel_filter_witness :
    nikeApparelMatch nikeGoodRec.title = false ∧
    ∀ st, nikeGoodRec.subTitle = some st → nikeApparelMatch st = false :=
  c10_nike_apparel_filter [nikeGoodRec] nikeGoodRec (by decide)

/-! ### C5: the data-quality gate is observability, not enforcement -/

/-- hoka `_run_data_quality_tests` (lines 222-255): the required-columns
and numeric-dtype checks are identically true in the record model (every
field exists and prices are numeric options); the null-price and
unique-id checks remain. -/
def hoka_run_data_quality_tests (rs : List ShoeRec) : Bool :=
  rs.all (fun r => !(r.price_sale == none)) &&
  rs.all (fun r => !(r.price_original == none)) &&
  decide ((rs.map (fun r => r.id)).Nodup)

/-- nike `_run_data_quality_tests` (lines 170-195): null prices, per-row
gender normalization, per-row non-negative prices (a pandas NaN compared
with 0 is not `< 0`, hence `getD 0`). -/
def nike_run_data_quality_tests (rs : List ShoeRec) : Bool :=
  rs.all (fun r => !(r.price_sale == none)) &&
  rs.all (fun r => !(r.price_original == none)) &&
  rs.all (fun r =>
    !decide ("male" ∈ r.gender ∧ "female" ∈ r.gender ∧ r.gender ≠ ["unisex"]) &&
    !decide (r.price_sale.getD 0 < 0) && !decide (r.price_original.getD 0 < 0))

/-- world_balance `_run_data_quality_tests` (lines 186-219). -/
def world_balance_run_data_quality_tests (rs : List ShoeRec) : Bool :=
  rs.all (fun r => !(r.price_original == none)) &&
  rs.all (fun r => !(r.price_sale == none)) &&
  rs.all (fun r =>
    !decide (r.price_original.getD 0 < 0 ∨ r.price_sale.getD 0 < 0) &&
    !decide ("male" ∈ r.gender ∧ "female" ∈ r.gender ∧ r.gender ≠ ["unisex"]))

/-- The tail of world_balance `extract` (lines 267-277): run the gate on
the cleaned frame, discard its verdict, return the records. -/
def world_balance_extract_return (df_clean : List ShoeRec) : List ShoeRec :=
  let _passed := world_balance_run_data_quality_tests df_clean
  df_clean

/-- The tail of nike `extract` (lines 210-218). -/
def nike_extract_return (df_clean : List ShoeRec) : List ShoeRec :=
  let _passed := nike_run_data_quality_tests df_clean
  df_clean

/-- The tail of hoka `extract` (lines 257-273). -/
def hoka_extract_return (df_clean : List ShoeRec) : List ShoeRec :=
  let _passed := hoka_run_data_quality_tests df_clean
  df_clean

/-- A record set the gate rejects: negative sale price. -/
def demoBadGate : ShoeRec :=
  { id := some "bad", title := "Bad", subTitle := none, url := "u", image := some "",
    price_sale := some (-5), price_original := some 3, gender := ["male"],
    age_group := "adult", brand := "worldbalance", extra := none }

/-- C5: the data-quality gates are total boolean checks whose verdict the
extract tails discard: for every record set — including one that fails the
checks, as the concrete negative-price set shows — the records are
returned to the caller unmodified. -/
theorem c5_gate_never_blocks :
    (∀ rs, world_balance_extract_return rs = rs ∧ nike_extract_return rs = rs ∧
      hoka_extract_return rs = rs) ∧
    (world_balance_run_data_quality_tests [demoBadGate] = false ∧
     world_balance_extract_return [demoBadGate] = [demoBadGate] ∧
     nike_run_data_quality_tests [demoBadGate] = false ∧
     nike_extract_return [demoBadGate] = [demoBadGate]) :=
  ⟨fun _ => ⟨rfl, rfl, rfl⟩, ⟨by decide, rfl, by decide, rfl⟩⟩

/-! ### C7: unknown brand yields a structured error -/

/-- C7: whenever the lowercased brand misses the lookup table,
`run_extract` returns the structured error body (and, being a total
function, raises nothing). -/
theorem c7_unknown_brand_error :
    ∀ (runBrand : Brand → String → Int → List ShoeRec) category brand pages,
      brandLookup (pyLower brand) = none →
      run_extract runBrand category brand pages =
        .errorResp ("Brand " ++ brand ++ " not implemented.") := by
  intro rb c b p h
  rw [run_extract, h]

theorem c7_unknown_brand_error_witness :
    run_extract (fun _ _ _ => []) "all" "puma" (-1) =
      .errorResp ("Brand " ++ "puma" ++ " not implemented.") :=
  c7_unknown_brand_error (fun _ _ _ => []) "all" "puma" (-1) (by decide)

/-! ### C9: CSV sanitization on upload -/

/-- C9 counterexample: a dict whose (first) key is the empty string makes
`upload_to_s3` write an empty header cell unchanged — the header row is
not sanitized, so the uploaded CSV can contain an empty-string cell. -/
theorem c9_counterexample :
    (upload_to_s3_rows [[("", PyVal.pstr "x")]]).headD [] = [PyVal.pstr ""] ∧
    PyVal.pstr "" ∈ (upload_to_s3_rows [[("", PyVal.pstr "x")]]).flatten := by
  decide

/-- C9 amended: every cell of every data row of the uploaded CSV is the
sanitized input value, hence never the empty string; only the unsanitized
header row can carry one. -/
theorem c9_no_empty_data_cells :
    ∀ (results : List (List (String × PyVal))), results ≠ [] →
      ∀ row ∈ (upload_to_s3_rows results).tail, ∀ c ∈ row, c ≠ PyVal.pstr "" := by
  intro results hne row hrow c hc
  match results, hne with
  | first :: rest, _ =>
    simp only [upload_to_s3_rows, List.tail_cons] at hrow
    rcases List.mem_map.mp hrow with ⟨rdict, -, rfl⟩
    rcases List.mem_map.mp hc with ⟨col, -, rfl⟩
    rw [sanitize]
    by_cases hv : dictGet rdict col = PyVal.pstr ""
    · rw [if_pos hv]
      intro hcontra
      exact absurd (PyVal.pstr.injEq .. ▸ congrArg id hcontra) (by simp)
    · rw [if_neg hv]
      exact hv

theorem c9_no_empty_data_cells_witness :
    [PyVal.pstr "empty"] ∈ (upload_to_s3_rows [[("id", PyVal.pstr "")]]).tail ∧
    PyVal.pstr "empty" ≠ PyVal.pstr "" :=
  ⟨by decide,
   c9_no_empty_data_cells [[("id", PyVal.pstr "")]] (by decide)
     [PyVal.pstr "empty"] (by decide) (PyVal.pstr "empty") (by decide)⟩

/-! ### C6: fetch_html retry semantics -/

theorem fetch_html_loop_success (resp : Nat → Option (Nat × String)) :
    ∀ (n start j : Nat) (body : String),
      start ≤ j → j < start + n → resp j = some (200, body) →
      (∀ k, start ≤ k → k < j → ∀ s b, resp k = some (s, b) → s ≠ 200) →
      fetch_html_loop resp n start = some body := by
  intro n
  induction n with
  | zero =>
    intro start j body h1 h2 _ _
    omega
  | succ m ih =>
    intro start j body h1 h2 hj hfail
    by_cases hsj : start = j
    · subst hsj
      rw [fetch_html_loop, hj]
      simp
    · have hlt : start < j := lt_of_le_of_ne h1 hsj
      have hrest : ∀ k, start + 1 ≤ k → k < j → ∀ s b, resp k = some (s, b) → s ≠ 200 :=
        fun k hk1 hk2 => hfail k (by omega) hk2
      rw [fetch_html_loop]
      cases hstart : resp start with
      | none => exact ih (start + 1) j body (by omega) (by omega) hj hrest
      | some p =>
        obtain ⟨s, b⟩ := p
        have hs : s ≠ 200 := hfail start le_rfl hlt s b hstart
        show (if s = 200 then some b else fetch_html_loop resp m (start + 1)) = some body
        rw [if_neg hs]
        exact ih (start + 1) j body (by omega) (by omega) hj hrest

theorem fetch_html_loop_fail (resp : Nat → Option (Nat × String)) :
    ∀ (n start : Nat),
      (∀ k, start ≤ k → k < start + n → ∀ s b, resp k = some (s, b) → s ≠ 200) →
      fetch_html_loop resp n start = none := by
  intro n
  induction n with
  | zero => intro start _; rfl
  | succ m ih =>
    intro start hfail
    have hrest : ∀ k, start + 1 ≤ k → k < (start + 1) + m → ∀ s b, resp k = some (s, b) → s ≠ 200 :=
      fun k hk1 hk2 => hfail k (by omega) (by omega)
    rw [fetch_html_loop]
    cases hstart : resp start with
    | none => exact ih (start + 1) hrest
    | some p =>
      obtain ⟨s, b⟩ := p
      have hs : s ≠ 200 := hfail start le_rfl (by omega) s b hstart
      show (if s = 200 then some b else fetch_html_loop resp m (start + 1)) = none
      rw [if_neg hs]
      exact ih (start + 1) hrest

/-- C6 counterexample: `fetch_html` does NOT signal failure immediately on
a non-2xx status outside the 5xx family — a 404 on attempt 0 is retried
and the 200 of attempt 1 is returned — and an empty 200 body is returned
as a success, not a failure. -/
theorem c6_counterexample :
    fetch_html 3 (fun a => if a = 0 then some (404, "x") else some (200, "ok"))
      false false none = some "ok" ∧
    fetch_html 1 (fun _ => some (200, "")) false false none = some "" := by
  decide

/-- C6 amended: `fetch_html` treats every failed attempt alike — any
exception and any non-200 status, 404 as much as 503 — retrying up to
`retries` attempts; it returns the body of the first 200 response (even an
empty one); if every attempt fails it returns `none` (no proxy fallback),
or the body of a direct fallback request that answers 200. -/
theorem c6_retry_all_failures :
    (∀ (resp : Nat → Option (Nat × String)) retries j body (up fd : Bool) d,
      j < retries →
      resp j = some (200, body) →
      (∀ k, k < j → ∀ s b, resp k = some (s, b) → s ≠ 200) →
      fetch_html retries resp up fd d = some body) ∧
    (∀ (resp : Nat → Option (Nat × String)) retries (fd : Bool) d,
      (∀ k, k < retries → ∀ s b, resp k = some (s, b) → s ≠ 200) →
      fetch_html retries resp false fd d = none ∧
      (∀ db, d = some (200, db) → fetch_html retries resp true true d = some db)) := by
  constructor
  · intro resp retries j body up fd d hj hresp hfail
    rw [fetch_html.eq_def,
      fetch_html_loop_success resp retries 0 j body (Nat.zero_le j) (by omega) hresp
        (fun k _ hk2 => hfail k hk2)]
  · intro resp retries fd d hfail
    have hloop := fetch_html_loop_fail resp retries 0 (fun k _ hk2 => hfail k (by omega))
    constructor
    · rw [fetch_html.eq_def, hloop]
      simp
    · intro db hdb
      rw [fetch_html.eq_def, hloop, hdb]
      simp

theorem c6_retry_all_failures_witness :
    fetch_html 3 (fun a => if a = 0 then some (500, "e") else some (200, "done"))
      false false none = some "done" :=
  c6_retry_all_failures.1 (fun a => if a = 0 then some (500, "e") else some (200, "done"))
    3 1 "done" false false none (by omega) rfl
    (fun k hk s b h => by
      have hk0 : k = 0 := Nat.lt_one_iff.mp hk
      subst hk0
      simp at h
      obtain ⟨h1, h2⟩ := h
      omega)

/-! ### C4: the caller-supplied page cap -/

/-- A two-page fake nike lazy-load API. -/
def nikeDemoApi : String → NikeResp := fun s =>
  if s = "/w?anchor=0" then { groupings := [["p1"]], next := some "/w?anchor=24" }
  else { groupings := [["p2"]], next := none }

/-- C4: nike's pagination recursion ignores the page cap entirely — with a
two-page category the nike fetch makes 2 requests no matter what
`num_pages` the caller supplied (the recursion does not even take it as an
input), while the adidas and new_balance loops given `num_pages = 1` fetch
exactly 1 page and stop. -/
theorem c4_nike_ignores_page_cap :
    nike_get_products_from_groupings nikeDemoApi 10 (some "/w?anchor=0") []
      = (["p1", "p2"], 2) ∧
    (adidas_extract_raw_loop (fun _ => [demoRaw, demoRaw]) 2 1 5 0).2 = 1 ∧
    (new_balance_page_loop (fun _ => some [demoRawNB]) 1 5 1 0).2 = 1 := by
  decide

/-! ### C3: price parsing -/

theorem pyFloat_no_digit {s : String} (h : ∀ c ∈ s.data, ¬(c.isDigit = true)) :
    pyFloat s = none := by
  rw [pyFloat]
  rw [if_neg]
  intro hc
  simp only [Bool.and_eq_true, List.any_eq_true] at hc
  rcases hc with ⟨-, c, hcmem, hcd⟩
  exact h c hcmem hcd

theorem wbTryMatch_no_digit {cs : List Char} (h : ∀ c ∈ cs, ¬(c.isDigit = true)) :
    wbTryMatch cs = none := by
  cases cs with
  | nil => rfl
  | cons c cs' =>
    rw [wbTryMatch, wbLeadDigits]
    rw [if_neg (h c (List.mem_cons_self _ _))]
    rfl

theorem wbFindAll_no_digit {cs : List Char} (h : ∀ c ∈ cs, ¬(c.isDigit = true)) :
    ∀ fuel, wbFindAll fuel cs = [] := by
  induction cs with
  | nil => intro fuel; cases fuel <;> rfl
  | cons c cs' ih =>
    intro fuel
    cases fuel with
    | zero => rfl
    | succ n =>
      rw [wbFindAll, wbTryMatch_no_digit h]
      exact ih (fun x hx => h x (List.mem_cons_of_mem _ hx)) n

instance {ε α : Type} [DecidableEq ε] [DecidableEq α] : DecidableEq (Except ε α) := fun a b =>
  match a, b with
  | .error e1, .error e2 =>
    if h : e1 = e2 then .isTrue (h ▸ rfl) else .isFalse (fun hc => h (by cases hc; rfl))
  | .ok a1, .ok a2 =>
    if h : a1 = a2 then .isTrue (h ▸ rfl) else .isFalse (fun hc => h (by cases hc; rfl))
  | .error _, .ok _ => .isFalse (fun hc => Except.noConfusion hc)
  | .ok _, .error _ => .isFalse (fun hc => Except.noConfusion hc)

unseal Rat.add Rat.mul Rat.inv in
/-- C3 counterexample: on the symbol-only string "₱." the asics
`parse_price` does not yield `None` — `re.sub` leaves the lone dot, and
`float(".")` raises a `ValueError` that `parse_price` does not catch
(`.error ()`), escaping to the per-tile handler. (hoka catches the same
`ValueError` to `None`; world_balance still returns its zero default.) -/
theorem c3_counterexample :
    asics_parse_price "₱." = .error () ∧ asics_parse_price "₱." ≠ .ok none ∧
    hoka_parse_price (some "₱.") = none ∧
    world_balance_parse_price "₱." = (0, 0) := by
  refine ⟨by decide, by decide, by decide, by decide⟩

unseal Rat.add Rat.mul Rat.inv in
/-- C3 amended: on a well-formed price string such as "₱1,234.56" all
three parsers yield 1234.56 (world_balance yields it for both components);
the empty string yields `None` (asics, hoka) or the `(0.0, 0.0)` default
(world_balance); a symbol-only string containing no digit, no letter and
no decimal point likewise yields `None`/default; and the cleaning clamp
turns the `None` default into 0.0. Only a symbol-only string containing a
decimal point deviates: asics's `parse_price` raises `ValueError` there
(see the counterexample). -/
theorem c3_price_parsing_amended :
    (asics_parse_price "₱1,234.56" = .ok (some (123456 / 100)) ∧
     hoka_parse_price (some "₱1,234.56") = some (123456 / 100) ∧
     world_balance_parse_price "₱1,234.56" = (123456 / 100, 123456 / 100)) ∧
    (asics_parse_price "" = .ok none ∧ hoka_parse_price none = none ∧
     hoka_parse_price (some "") = none ∧ world_balance_parse_price "" = (0, 0)) ∧
    (∀ s : String, (∀ c ∈ s.data, ¬(c.isDigit = true) ∧ ¬(c.isAlpha = true) ∧ c ≠ '.') →
      asics_parse_price s = .ok none ∧ hoka_parse_price (some s) = none ∧
      world_balance_parse_price s = (0, 0)) ∧
    cleanPrice none = some 0 := by
  refine ⟨by decide, by decide, ?_, by decide⟩
  intro s h
  refine ⟨?_, ?_, ?_⟩
  · rw [asics_parse_price]
    rw [if_pos]
    rw [List.isEmpty_iff, List.filter_eq_nil_iff]
    intro c hc
    simp only [Bool.or_eq_true, not_or]
    exact ⟨fun hd => (h c hc).1 hd, fun hd => (h c hc).2.2 (by simpa using hd)⟩
  · rw [hoka_parse_price]
    by_cases ht : (s.data.filter (fun c => decide (c ≠ '₱' ∧ c ≠ ','))).isEmpty
    · rw [if_pos ht]
    · rw [if_neg ht]
      apply pyFloat_no_digit
      intro c hc
      exact (h c (List.mem_filter.mp hc).1).1
  · rw [world_balance_parse_price]
    rw [wbFindAll_no_digit (fun c hc => (h c hc).1)]
    rfl

theorem c3_price_parsing_amended_witness :
    asics_parse_price "₱" = .ok none ∧ hoka_parse_price (some "₱") = none ∧
    world_balance_parse_price "₱" = (0, 0) :=
  (c3_price_parsing_amended.2.2.1 "₱" (by decide))

/-! ### C2: gender union when merging duplicate ids -/

/-- Two nike raw records with the same id from the men's and women's
category crawls, already in cleaned form apart from the duplication. -/
def nikeDupMale : ShoeRec :=
  { id := some "dup", title := "Air Max", subTitle := none, url := "u", image := some "",
    price_sale := some 10, price_original := some 10, gender := ["male"],
    age_group := "adult", brand := "nike", extra := none }

/-- The same product seen under the women's category. -/
def nikeDupFemale : ShoeRec :=
  { nikeDupMale with gender := ["female"] }

/-- C2 counterexample: nike's `_clean_data` does not union gender lists
across an id-group — `drop_duplicates(keep="first")` keeps the first-seen
record wholesale, so a shoe listed with gender ["male"] and again with
["female"] comes out as ["male"], not ["unisex"] and not a union. -/
theorem c2_counterexample :
    (nike_clean_data [nikeDupMale, nikeDupFemale]).map (fun r => r.gender) = [["male"]] ∧
    (nike_clean_data [nikeDupMale, nikeDupFemale]).map (fun r => r.gender) ≠ [["unisex"]] := by
  decide

theorem nbIdGroup_ne_nil {rs : List NBRec} {i : String}
    (h : i ∈ (rs.map (fun r => r.id)).dedup) : nbIdGroup rs i ≠ [] := by
  rw [List.mem_dedup] at h
  rcases List.mem_map.mp h with ⟨r0, hr0, hid⟩
  intro hc
  have hmem : r0 ∈ nbIdGroup rs i := List.mem_filter.mpr ⟨hr0, by simp [hid]⟩
  rw [hc] at hmem
  exact (List.not_mem_nil _) hmem

/-- C2 amended: the adidas normalizer unions the lowercased gender lists
of each id-group and collapses to exactly ["unisex"] when the union
contains both "male" and "female", otherwise keeping the sorted union,
with scalar fields first-wins; new_balance does the same except its
collapse fires only when the union equals exactly the set
including "male" and "female" and nothing else; nike does not union at
all — its dedupe keeps the entire first-seen record (whose gender saw only
the per-record both-male-and-female collapse). -/
theorem c2_gender_union_amended :
    (∀ rs i, i ∈ groupKeys (rs.map adidasNormRec) →
      ∃ r ∈ adidas_clean_data rs,
        r.id = some i ∧
        r.gender = collapseGenders (genderUnion (idGroup (rs.map adidasNormRec) i)) ∧
        ∀ r0, (rs.map adidasNormRec).find? (fun x => x.id == some i) = some r0 →
          r.title = r0.title ∧ r.subTitle = r0.subTitle ∧ r.url = r0.url ∧
          r.price_sale = r0.price_sale ∧ r.price_original = r0.price_original ∧
          r.age_group = r0.age_group ∧ r.brand = r0.brand) ∧
    (∀ rs i, i ∈ (rs.map (fun r => NBRec.id r)).dedup →
      ∃ r ∈ nbMergeById rs,
        r.id = i ∧
        r.gender = (if nbGenderSetIsMF (((nbIdGroup rs i).map (fun x => x.gender)).flatten).dedup
          then ["unisex"]
          else sortStrList (((nbIdGroup rs i).map (fun x => x.gender)).flatten).dedup) ∧
        ∀ r0, rs.find? (fun x => x.id == i) = some r0 →
          r.title = r0.title ∧ r.subTitle = r0.subTitle ∧ r.url = r0.url ∧
          r.price_sale = r0.price_sale ∧ r.price_original = r0.price_original) ∧
    (∀ rs i r, (nike_pre_dedup rs).find? (fun x => x.id == some i) = some r →
      r ∈ nike_clean_data rs) := by
  refine ⟨?_, ?_, ?_⟩
  · intro rs i h
    have hA : ((rs.map adidasNormRec).isEmpty) = false := by
      cases hA : rs.map adidasNormRec with
      | nil =>
        rw [groupKeys, hA] at h
        simp [sortStrList] at h
      | cons a as => rfl
    simp only [adidas_clean_data, hA, Bool.false_eq_true, if_false]
    refine ⟨_, List.mem_map_of_mem _ (List.mem_map_of_mem _ h), ?_, rfl, ?_⟩
    · have hne := idGroup_ne_nil h
      have hb := headD_mem hne (default : ShoeRec)
      have hid := (List.mem_filter.mp hb).2
      show ((idGroup (rs.map adidasNormRec) i).headD default).id = some i
      simpa using hid
    · intro r0 hf
      rw [← filter_head?_eq_find?] at hf
      have hne := idGroup_ne_nil h
      cases hg : idGroup (rs.map adidasNormRec) i with
      | nil => exact absurd hg hne
      | cons g0 gs =>
        have hf2 : (idGroup (rs.map adidasNormRec) i).head? = some r0 := hf
        rw [hg] at hf2
        have hr0 : r0 = g0 := by
          simp only [List.head?_cons, Option.some.injEq] at hf2
          exact hf2.symm
        subst hr0
        exact ⟨rfl, rfl, rfl, rfl, rfl, rfl, rfl⟩
  · intro rs i h
    have hkey : i ∈ sortStrList ((rs.map (fun r => r.id)).dedup) := by
      rw [sortStrList, List.mem_insertionSort]
      exact h
    simp only [nbMergeById]
    refine ⟨_, List.mem_map_of_mem _ hkey, ?_, rfl, ?_⟩
    · have hne := nbIdGroup_ne_nil h
      have hb := headD_mem hne (default : NBRec)
      have hid := (List.mem_filter.mp hb).2
      show ((nbIdGroup rs i).headD default).id = i
      simpa using hid
    · intro r0 hf
      rw [← filter_head?_eq_find?] at hf
      have hne := nbIdGroup_ne_nil h
      cases hg : nbIdGroup rs i with
      | nil => exact absurd hg hne
      | cons g0 gs =>
        have hf2 : (nbIdGroup rs i).head? = some r0 := hf
        rw [hg] at hf2
        have hr0 : r0 = g0 := by
          simp only [List.head?_cons, Option.some.injEq] at hf2
          exact hf2.symm
        subst hr0
        exact ⟨rfl, rfl, rfl, rfl, rfl⟩
  · intro rs i r hf
    rw [nike_clean_data]
    exact find?_mem_dedupByIdAux (by simp) hf

/-- Two new_balance raw records with the same id from a men's and a
women's size filter. -/
def nbDupMale : NBRec :=
  { id := "nb1", title := "NB 550", subTitle := "All Mens", url := "u", image := "",
    price_sale := 10, price_original := 10, gender := ["male"],
    age_group := "adult", brand := "newbalance", sizes := ["US M 8"] }

/-- The same product under a women's filter. -/
def nbDupFemale : NBRec :=
  { nbDupMale with subTitle := "All Womens", gender := ["female"], sizes := ["US W 7"] }

theorem c2_gender_union_amended_witness :
    (∃ r ∈ adidas_clean_data [nikeDupMale, nikeDupFemale], r.gender = ["unisex"]) ∧
    (∃ r ∈ nbMergeById [nbDupMale, nbDupFemale], r.gender = ["unisex"]) ∧
    nikeDupMale ∈ nike_clean_data [nikeDupMale, nikeDupFemale] := by
  refine ⟨?_, ?_, ?_⟩
  · obtain ⟨r, hr, -, hg, -⟩ :=
      c2_gender_union_amended.1 [nikeDupMale, nikeDupFemale] "dup" (by decide)
    exact ⟨r, hr, by rw [hg]; decide⟩
  · obtain ⟨r, hr, -, hg, -⟩ :=
      c2_gender_union_amended.2.1 [nbDupMale, nbDupFemale] "nb1" (by decide)
    exact ⟨r, hr, by rw [hg]; decide⟩
  · exact c2_gender_union_amended.2.2 [nikeDupMale, nikeDupFemale] "dup" nikeDupMale (by decide)

/-! ### C8: idempotence of the cleaning step -/

theorem max_zero_idem (x : Rat) : max 0 (max 0 x) = max 0 x := by
  rw [← max_assoc, max_self]

theorem map_eq_self_of_fixed {α : Type} {f : α → α} {l : List α}
    (h : ∀ x ∈ l, f x = x) : l.map f = l := by
  induction l with
  | nil => rfl
  | cons a as ih =>
    rw [List.map_cons, h a (List.mem_cons_self _ _),
      ih (fun x hx => h x (List.mem_cons_of_mem _ hx))]

theorem cleanPrice_idem (v : Option Rat) : cleanPrice (cleanPrice v) = cleanPrice v := by
  rw [cleanPrice, cleanPrice, Option.getD_some, max_zero_idem]

theorem wbNormRec_idem (r : ShoeRec) : wbNormRec (wbNormRec r) = wbNormRec r := by
  simp only [wbNormRec, Option.getD_some, max_zero_idem, List.map_map]
  congr 1
  exact List.map_congr_left (fun a _ => pyLower_idem a)

theorem wb_clean_idem (rs : List ShoeRec) :
    world_balance_clean_data (world_balance_clean_data rs) = world_balance_clean_data rs := by
  rw [world_balance_clean_data, world_balance_clean_data]
  have hfix : ∀ x ∈ dedupById (rs.map wbNormRec), wbNormRec x = x := by
    intro x hx
    rcases List.mem_map.mp (mem_dedupById hx) with ⟨y, -, rfl⟩
    exact wbNormRec_idem y
  rw [map_eq_self_of_fixed hfix, dedupById_idem]

theorem filterMap_id_eq_self {α : Type} {f : α → Option α} {l : List α}
    (h : ∀ x ∈ l, f x = some x) : l.filterMap f = l := by
  induction l with
  | nil => rfl
  | cons a as ih =>
    rw [List.filterMap_cons_some (h a (List.mem_cons_self _ _)),
      ih (fun x hx => h x (List.mem_cons_of_mem _ hx))]

theorem adidasNormRec_fixed {r : ShoeRec}
    (hg : ∀ x ∈ r.gender, pyLower x = x)
    (hs : cleanPrice r.price_sale = r.price_sale)
    (ho : cleanPrice r.price_original = r.price_original) :
    adidasNormRec r = r := by
  rw [adidasNormRec, map_eq_self_of_fixed hg, hs, ho]

theorem collapseGenders_mem_fixed {U : List String}
    (hU : ∀ x ∈ U, pyLower x = x) : ∀ x ∈ collapseGenders U, pyLower x = x := by
  intro x hx
  rw [collapseGenders] at hx
  by_cases hmf : "male" ∈ U ∧ "female" ∈ U
  · rw [if_pos hmf] at hx
    rw [List.mem_singleton] at hx
    subst hx
    decide
  · rw [if_neg hmf, sortStrList, List.mem_insertionSort] at hx
    exact hU x hx

theorem genderUnion_mem_fixed {rs : List ShoeRec} {i : String} :
    ∀ x ∈ genderUnion (idGroup (rs.map adidasNormRec) i), pyLower x = x := by
  intro x hx
  rw [genderUnion, List.mem_dedup, List.mem_flatten] at hx
  rcases hx with ⟨gl, hgl, hx⟩
  rcases List.mem_map.mp hgl with ⟨rec, hrec, rfl⟩
  have hrec2 : rec ∈ rs.map adidasNormRec := (List.mem_filter.mp hrec).1
  rcases List.mem_map.mp hrec2 with ⟨y, -, rfl⟩
  rcases List.mem_map.mp (show x ∈ y.gender.map pyLower from hx) with ⟨z, -, rfl⟩
  exact pyLower_idem z

theorem collapseGenders_stable {U : List String} (hU : U.Nodup) :
    collapseGenders ((collapseGenders U).dedup) = collapseGenders U := by
  by_cases hmf : "male" ∈ U ∧ "female" ∈ U
  · have h1 : collapseGenders U = ["unisex"] := by rw [collapseGenders, if_pos hmf]
    rw [h1]
    decide
  · have h1 : collapseGenders U = sortStrList U := by rw [collapseGenders, if_neg hmf]
    rw [h1]
    have hperm : List.Perm (U.insertionSort (fun a b => a ≤ b)) U :=
      List.perm_insertionSort _ U
    have hS_nodup : (sortStrList U).Nodup := by
      rw [sortStrList]
      exact hperm.nodup_iff.mpr hU
    rw [List.dedup_eq_self.mpr hS_nodup]
    have hmf2 : ¬("male" ∈ sortStrList U ∧ "female" ∈ sortStrList U) := by
      intro hc
      rw [sortStrList, List.mem_insertionSort, List.mem_insertionSort] at hc
      exact hmf hc
    rw [collapseGenders, if_neg hmf2, sortStrList, sortStrList]
    exact List.Sorted.insertionSort_eq (List.sorted_insertionSort _ U)

theorem fillImage_idem (d : String) (r : ShoeRec) :
    fillImage d (fillImage d r) = fillImage d r := by
  simp only [fillImage, Option.getD_some]

theorem adidasMergeGroup_singleton {r : ShoeRec}
    (hg : collapseGenders (r.gender.dedup) = r.gender) :
    adidasMergeGroup [r] = r := by
  simp only [adidasMergeGroup, genderUnion, List.map_cons, List.map_nil,
    List.flatten_cons, List.flatten_nil, List.append_nil, List.headD_cons, hg]

theorem map_filter_by_id {keys : List String} {F : String → ShoeRec}
    (hF : ∀ j ∈ keys, (F j).id = some j) (hnd : keys.Nodup) :
    ∀ i ∈ keys, (keys.map F).filter (fun r => r.id == some i) = [F i] := by
  induction keys with
  | nil => intro i hi; cases hi
  | cons k ks ih =>
    intro i hi
    rw [List.map_cons, List.filter_cons]
    by_cases hik : i = k
    · subst hik
      rw [if_pos (by simp [hF i (List.mem_cons_self _ _)])]
      have hrest : (ks.map F).filter (fun r => r.id == some i) = [] := by
        rw [List.filter_eq_nil_iff]
        intro r hr
        rcases List.mem_map.mp hr with ⟨j, hj, rfl⟩
        have hne : j ≠ i := fun hc => (List.nodup_cons.mp hnd).1 (hc ▸ hj)
        simp [hF j (List.mem_cons_of_mem _ hj), hne]
      rw [hrest]
    · have hi' : i ∈ ks := by
        rcases List.mem_cons.mp hi with h | h
        · exact absurd h hik
        · exact h
      rw [if_neg (by
        have hkne : k ≠ i := fun hc => hik hc.symm
        simp [hF k (List.mem_cons_self _ _), hkne])]
      exact ih (fun j hj => hF j (List.mem_cons_of_mem _ hj)) (List.nodup_cons.mp hnd).2 i hi'

/-- The output record adidas's clean step produces for group key `i`. -/
def adidasGroupRec (rs : List ShoeRec) (i : String) : ShoeRec :=
  fillImage "" (adidasMergeGroup (idGroup (rs.map adidasNormRec) i))

theorem adidas_out_eq (rs : List ShoeRec) (hE : (rs.map adidasNormRec).isEmpty = false) :
    adidas_clean_data rs = (groupKeys (rs.map adidasNormRec)).map (adidasGroupRec rs) := by
  simp only [adidas_clean_data, hE, Bool.false_eq_true, if_false, List.map_map]
  rfl

theorem adidas_G_id {rs : List ShoeRec} {i : String}
    (h : i ∈ groupKeys (rs.map adidasNormRec)) :
    (adidasGroupRec rs i).id = some i := by
  have hne := idGroup_ne_nil h
  have hb := headD_mem hne (default : ShoeRec)
  have hid := (List.mem_filter.mp hb).2
  show ((idGroup (rs.map adidasNormRec) i).headD default).id = some i
  simpa using hid

theorem adidas_G_fixed {rs : List ShoeRec} {i : String}
    (h : i ∈ groupKeys (rs.map adidasNormRec)) :
    adidasNormRec (adidasGroupRec rs i) = adidasGroupRec rs i := by
  have hne := idGroup_ne_nil h
  have hb := headD_mem hne (default : ShoeRec)
  have hbase : (idGroup (rs.map adidasNormRec) i).headD default ∈ rs.map adidasNormRec :=
    (List.mem_filter.mp hb).1
  rcases List.mem_map.mp hbase with ⟨y, -, hy⟩
  apply adidasNormRec_fixed
  · exact fun x hx => collapseGenders_mem_fixed genderUnion_mem_fixed x hx
  · show cleanPrice ((idGroup (rs.map adidasNormRec) i).headD default).price_sale
      = ((idGroup (rs.map adidasNormRec) i).headD default).price_sale
    rw [← hy]
    exact cleanPrice_idem _
  · show cleanPrice ((idGroup (rs.map adidasNormRec) i).headD default).price_original
      = ((idGroup (rs.map adidasNormRec) i).headD default).price_original
    rw [← hy]
    exact cleanPrice_idem _

theorem adidas_G_gender_stable {rs : List ShoeRec} {i : String} :
    collapseGenders ((adidasGroupRec rs i).gender.dedup) = (adidasGroupRec rs i).gender := by
  show collapseGenders
      ((collapseGenders (genderUnion (idGroup (rs.map adidasNormRec) i))).dedup)
    = collapseGenders (genderUnion (idGroup (rs.map adidasNormRec) i))
  exact collapseGenders_stable (List.nodup_dedup _)

theorem idGroup_map_singleton {keys : List String} {F : String → ShoeRec}
    (hF : ∀ j ∈ keys, (F j).id = some j) (hnd : keys.Nodup) :
    ∀ i ∈ keys, idGroup (keys.map F) i = [F i] :=
  fun i hi => map_filter_by_id hF hnd i hi

theorem adidas_clean_idem (rs : List ShoeRec) :
    adidas_clean_data (adidas_clean_data rs) = adidas_clean_data rs := by
  by_cases hE : (rs.map adidasNormRec).isEmpty
  · have h0 : adidas_clean_data rs = [] := by
      have hnil : rs.map adidasNormRec = [] := List.isEmpty_iff.mp hE
      simp [adidas_clean_data, hnil]
    rw [h0]
    rfl
  · rw [Bool.not_eq_true] at hE
    rw [adidas_out_eq rs hE]
    have hknd : (groupKeys (rs.map adidasNormRec)).Nodup := by
      rw [groupKeys, sortStrList]
      exact (List.perm_insertionSort _ _).nodup_iff.mpr (List.nodup_dedup _)
    have hksorted : List.Sorted (fun a b : String => a ≤ b)
        (groupKeys (rs.map adidasNormRec)) := by
      rw [groupKeys, sortStrList]
      exact List.sorted_insertionSort _ _
    have hGid : ∀ j ∈ groupKeys (rs.map adidasNormRec), (adidasGroupRec rs j).id = some j :=
      fun j hj => adidas_G_id hj
    have hA2 : ((groupKeys (rs.map adidasNormRec)).map (adidasGroupRec rs)).map adidasNormRec
        = (groupKeys (rs.map adidasNormRec)).map (adidasGroupRec rs) := by
      apply map_eq_self_of_fixed
      intro x hx
      rcases List.mem_map.mp hx with ⟨j, hj, rfl⟩
      exact adidas_G_fixed hj
    by_cases hK : groupKeys (rs.map adidasNormRec) = []
    · rw [hK]
      rfl
    · have hne2 : (((groupKeys (rs.map adidasNormRec)).map (adidasGroupRec rs)).map
          adidasNormRec).isEmpty = false := by
        rw [hA2]
        cases hks : groupKeys (rs.map adidasNormRec) with
        | nil => exact absurd hks hK
        | cons a as => rfl
      rw [adidas_out_eq _ hne2]
      have hkeys2 : groupKeys (((groupKeys (rs.map adidasNormRec)).map
          (adidasGroupRec rs)).map adidasNormRec) = groupKeys (rs.map adidasNormRec) := by
        rw [hA2, groupKeys, List.filterMap_map]
        show sortStrList ((List.filterMap (fun j => (adidasGroupRec rs j).id)
          (groupKeys (rs.map adidasNormRec))).dedup) = groupKeys (rs.map adidasNormRec)
        rw [filterMap_id_eq_self (fun j hj => hGid j hj)]
        rw [List.dedup_eq_self.mpr hknd, sortStrList]
        exact List.Sorted.insertionSort_eq hksorted
      rw [hkeys2]
      apply List.map_congr_left
      intro i hi
      show fillImage "" (adidasMergeGroup (idGroup (((groupKeys (rs.map adidasNormRec)).map
          (adidasGroupRec rs)).map adidasNormRec) i)) = adidasGroupRec rs i
      rw [hA2]
      rw [idGroup_map_singleton hGid hknd i hi]
      rw [adidasMergeGroup_singleton adidas_G_gender_stable]
      rw [adidasGroupRec]
      exact fillImage_idem "" _

/-- C8: the normalizer/cleaning step is idempotent — applying
world_balance's or adidas's `_clean_data` to its own output (already
coerced, deduplicated and gender-normalized) returns that output
unchanged. -/
theorem c8_clean_idempotent :
    ∀ rs, world_balance_clean_data (world_balance_clean_data rs)
        = world_balance_clean_data rs ∧
      adidas_clean_data (adidas_clean_data rs) = adidas_clean_data rs :=
  fun rs => ⟨wb_clean_idem rs, adidas_clean_idem rs⟩
